import Mathlib

/-!
# SSH MAC algorithms and pointer-typed configuration values of WANProxy

A shallow embedding of `ssh/ssh_mac.cc` (the table `ssh_mac_algorithms`, the
class `CryptoSSHMAC`, and the functions `SSH::MAC::add_algorithms` and
`SSH::MAC::algorithm`) and of `config/config_type_pointer.h`
(`ConfigTypePointer::get`), followed by the properties proved about them.

Heap objects are handled by explicit state passing: a function that may
touch the cryptographic provider's objects takes the provider world and
returns the new one.
-/

set_option autoImplicit false

namespace WANProxy

/-- A `Buffer` is read here as the sequence of its bytes. -/
abbrev Buffer := List UInt8

namespace CryptoMAC

/-- The enumeration `CryptoMAC::Algorithm`. Its declaration
(`crypto/crypto_mac.h`) is not among the sources: the five enumerators that
`ssh_mac.cc` names are constructors, and `Other` stands for any further value
of the enumeration type. -/
inductive Algorithm where
  | SHA1
  | SHA256
  | SHA512
  | RIPEMD160
  | MD5
  | Other (code : Nat)
  deriving DecidableEq, Repr

/-- The interface of the cryptographic provider that `ssh_mac.cc` calls:
the static lookup `CryptoMAC::Method::method`, the factory
`Method::instance`, and the virtual methods `size`, `clone`, `initialize` and
`mac` of `CryptoMAC::Instance`. None of their implementations is among the
sources, so each is a field. `W` is the state of the provider's heap objects,
`μ` the non-NULL `Method` pointers and `ι` the non-NULL `Instance` pointers;
a pointer result that may be NULL is an `Option`. -/
structure Provider (W μ ι : Type) where
  /-- The static lookup `CryptoMAC::Method::method(algorithm)`. -/
  method : Algorithm → Option μ
  /-- The call `method->instance(algorithm)`. -/
  method_instance : W → μ → Algorithm → Option ι × W
  /-- The call `instance->size()`. -/
  instance_size : W → ι → Nat
  /-- The call `instance->clone()`. -/
  instance_clone : W → ι → ι × W
  /-- The call `instance->initialize(key)`. -/
  instance_initialize : W → ι → Buffer → Bool × W
  /-- The call `instance->mac(out, in)`: the result, the new content of `out`, and the
  new world. -/
  instance_mac : W → ι → Buffer → Buffer → (Bool × Buffer) × W

end CryptoMAC

open CryptoMAC (Algorithm Provider)

/-- One row of the table: `struct ssh_mac_algorithm`. A NULL
`rfc4250_name_` is `none`. -/
structure ssh_mac_algorithm where
  rfc4250_name_ : Option String
  crypto_algorithm_ : Algorithm
  size_ : Nat
  deriving DecidableEq, Repr

/-- The table `ssh_mac_algorithms`, with its terminating row. -/
def ssh_mac_algorithms : List ssh_mac_algorithm :=
  [ { rfc4250_name_ := some "hmac-sha1", crypto_algorithm_ := Algorithm.SHA1, size_ := 0 },
    { rfc4250_name_ := some "hmac-sha2-256", crypto_algorithm_ := Algorithm.SHA256, size_ := 0 },
    { rfc4250_name_ := some "hmac-sha2-512", crypto_algorithm_ := Algorithm.SHA512, size_ := 0 },
    { rfc4250_name_ := some "hmac-ripemd160", crypto_algorithm_ := Algorithm.RIPEMD160, size_ := 0 },
    { rfc4250_name_ := some "hmac-md5", crypto_algorithm_ := Algorithm.MD5, size_ := 0 },
    { rfc4250_name_ := some "hmac-sha1-96", crypto_algorithm_ := Algorithm.SHA1, size_ := 12 },
    { rfc4250_name_ := some "hmac-md5-96", crypto_algorithm_ := Algorithm.MD5, size_ := 12 },
    { rfc4250_name_ := none, crypto_algorithm_ := Algorithm.MD5, size_ := 0 } ]

/-- An object of class `CryptoSSHMAC`: the three members it inherits from
`SSH::MAC` (wire name, declared tag size, declared key size, in the order the
base constructor takes them) and its own `instance_` pointer. -/
structure CryptoSSHMAC (ι : Type) where
  name_ : String
  size_ : Nat
  key_size_ : Nat
  instance_ : ι
  deriving DecidableEq, Repr

section Code

variable {W μ ι : Type}

/-- The constructor `CryptoSSHMAC::CryptoSSHMAC(xname, instance, xsize)`. -/
def CryptoSSHMAC.ctor (P : Provider W μ ι) (w : W) (xname : String) (inst : ι)
    (xsize : Nat) : CryptoSSHMAC ι :=
  { name_ := xname
    size_ := if xsize = 0 then P.instance_size w inst else xsize
    key_size_ := P.instance_size w inst
    instance_ := inst }

/-- The method `CryptoSSHMAC::clone`: the provider instance is cloned first,
then the constructor runs on the clone with `key_size_` as its third
argument. -/
def CryptoSSHMAC.clone (P : Provider W μ ι) (m : CryptoSSHMAC ι) (w : W) :
    CryptoSSHMAC ι × W :=
  let r := P.instance_clone w m.instance_
  (CryptoSSHMAC.ctor P r.2 m.name_ r.1 m.key_size_, r.2)

/-- The method `CryptoSSHMAC::initialize(key)`. -/
def CryptoSSHMAC.initialize (P : Provider W μ ι) (m : CryptoSSHMAC ι) (w : W)
    (key : Buffer) : Bool × W :=
  P.instance_initialize w m.instance_ key

/-- The method `CryptoSSHMAC::mac(out, in)`: the result, the new content of
`out`, and the new world. -/
def CryptoSSHMAC.mac (P : Provider W μ ι) (m : CryptoSSHMAC ι) (w : W)
    (out inp : Buffer) : (Bool × Buffer) × W :=
  P.instance_mac w m.instance_ out inp

/-- What the functions write to the log: the level and text of each message,
with the algorithm streamed after it. -/
inductive LogLine where
  | debug_no_method (a : Algorithm)
  | debug_no_instance (a : Algorithm)
  | error_no_method (a : Algorithm)
  | error_no_instance (a : Algorithm)
  | error_no_support (a : Algorithm)
  deriving DecidableEq, Repr

/-- What a run of `SSH::MAC::add_algorithms` leaves behind: the arguments of
its `add_algorithm` calls on the session's negotiation, in call order, the
log, and the provider world. -/
structure AddState (W ι : Type) where
  added : List (CryptoSSHMAC ι)
  log : List LogLine
  world : W

/-- The loop of `SSH::MAC::add_algorithms`, from the row `alg` points at. -/
def add_algorithms_loop (P : Provider W μ ι) :
    List ssh_mac_algorithm → AddState W ι → AddState W ι
  | [], s => s
  | alg :: rest, s =>
    match alg.rfc4250_name_ with
    | none => s
    | some name =>
      match P.method alg.crypto_algorithm_ with
      | none =>
        add_algorithms_loop P rest
          { s with log := s.log ++ [LogLine.debug_no_method alg.crypto_algorithm_] }
      | some method =>
        match P.method_instance s.world method alg.crypto_algorithm_ with
        | (none, w1) =>
          add_algorithms_loop P rest
            { s with log := s.log ++ [LogLine.debug_no_instance alg.crypto_algorithm_]
                     world := w1 }
        | (some inst, w1) =>
          add_algorithms_loop P rest
            { s with added := s.added ++ [CryptoSSHMAC.ctor P w1 name inst alg.size_]
                     world := w1 }

/-- The function `SSH::MAC::add_algorithms(session)`, on a session whose
negotiation has received no MAC yet. -/
def add_algorithms (P : Provider W μ ι) (w : W) : AddState W ι :=
  add_algorithms_loop P ssh_mac_algorithms { added := [], log := [], world := w }

/-- The result of `SSH::MAC::algorithm`: the returned pointer (`none` is
NULL), the log, and the provider world. -/
structure AlgorithmResult (W ι : Type) where
  ret : Option (CryptoSSHMAC ι)
  log : List LogLine
  world : W

/-- The loop of `SSH::MAC::algorithm(xalgorithm)`, from the row `alg` points
at, with the statements after the loop. -/
def algorithm_loop (P : Provider W μ ι) (xalgorithm : Algorithm) (w : W) :
    List ssh_mac_algorithm → AlgorithmResult W ι
  | [] => { ret := none, log := [LogLine.error_no_support xalgorithm], world := w }
  | alg :: rest =>
    match alg.rfc4250_name_ with
    | none => { ret := none, log := [LogLine.error_no_support xalgorithm], world := w }
    | some name =>
      if xalgorithm ≠ alg.crypto_algorithm_ then
        algorithm_loop P xalgorithm w rest
      else
        match P.method xalgorithm with
        | none => { ret := none, log := [LogLine.error_no_method xalgorithm], world := w }
        | some method =>
          match P.method_instance w method xalgorithm with
          | (none, w1) =>
            { ret := none, log := [LogLine.error_no_instance xalgorithm], world := w1 }
          | (some inst, w1) =>
            { ret := some (CryptoSSHMAC.ctor P w1 name inst alg.size_), log := [], world := w1 }

/-- The function `SSH::MAC::algorithm(xalgorithm)`. -/
def algorithm (P : Provider W μ ι) (xalgorithm : Algorithm) (w : W) :
    AlgorithmResult W ι :=
  algorithm_loop P xalgorithm w ssh_mac_algorithms

end Code

/-! ## The provider, as the specification describes it -/

namespace CryptoMAC

/-- Modelled from the spec: the cryptographic primitives behind the provider,
which the sources do not contain and the specification treats as opaque:
which identities have a `Method` and an `Instance`, the natural size of each
primitive, and the keyed function itself (key, then input). -/
structure Backend where
  has_method : Algorithm → Bool
  has_instance : Algorithm → Bool
  natural_size : Algorithm → Nat
  hmac : Algorithm → Buffer → Buffer → Buffer

/-- Modelled from the spec: a `CryptoMAC::Instance` object, whose class
(`crypto/crypto_mac.h` and its implementations) is not among the sources. It
holds the identity of its primitive and "opaque key material supplied exactly
once at initialization"; `none` is the unkeyed state. -/
structure InstanceObject where
  algorithm : Algorithm
  key : Option Buffer
  deriving DecidableEq, Repr

/-- Modelled from the spec: the provider's heap, the `Instance` objects
allocated so far; a pointer is the position of its object, and an object is
never freed here. -/
abbrev Heap := List InstanceObject

/-- Modelled from the spec: `Method::instance`, missing from the sources.
"`instance(identity) -> KeyedInstanceHandle | Unavailable`": a fresh unkeyed
object when the backend supports the identity, NULL otherwise. -/
def spec_method_instance (B : Backend) (h : Heap) (a : Algorithm) : Option Nat × Heap :=
  if B.has_instance a then (some h.length, h ++ [{ algorithm := a, key := none }])
  else (none, h)

/-- Modelled from the spec: `Instance::size`, missing from the sources: the
"provider's natural size". -/
def spec_instance_size (B : Backend) (h : Heap) (p : Nat) : Nat :=
  match h[p]? with
  | some o => B.natural_size o.algorithm
  | none => 0

/-- Modelled from the spec: `Instance::clone`, missing from the sources:
"new unkeyed instance of the same algorithm", with "fresh, uninitialized key
state". -/
def spec_instance_clone (h : Heap) (p : Nat) : Nat × Heap :=
  match h[p]? with
  | some o => (h.length, h ++ [{ algorithm := o.algorithm, key := none }])
  | none => (p, h)

/-- Modelled from the spec: `Instance::initialize`, missing from the sources:
"binds key material; fails if key length mismatches `key_size`", and
"calling `initialize()` twice on the same instance is rejected (returns/signals
failure) and the second key is never adopted". -/
def spec_instance_initialize (B : Backend) (h : Heap) (p : Nat) (key : Buffer) :
    Bool × Heap :=
  match h[p]? with
  | some o =>
    if o.key.isSome then (false, h)
    else if key.length ≠ B.natural_size o.algorithm then (false, h)
    else (true, h.set p { o with key := some key })
  | none => (false, h)

/-- Modelled from the spec: `Instance::mac`, missing from the sources:
"deterministic function of (key, input)", appended to `out`; "attempting the
operation before initialization ... is an error". -/
def spec_instance_mac (B : Backend) (h : Heap) (p : Nat) (out inp : Buffer) :
    (Bool × Buffer) × Heap :=
  match h[p]? with
  | some o =>
    match o.key with
    | some k => ((true, out ++ B.hmac o.algorithm k inp), h)
    | none => ((false, out), h)
  | none => ((false, out), h)

/-- Modelled from the spec: the whole provider over a backend; the `Method`
of an identity is named by the identity. -/
def spec_provider (B : Backend) : Provider Heap Algorithm Nat :=
  { method := fun a => if B.has_method a then some a else none
    method_instance := fun h _ a => spec_method_instance B h a
    instance_size := spec_instance_size B
    instance_clone := spec_instance_clone
    instance_initialize := spec_instance_initialize B
    instance_mac := spec_instance_mac B }

/-- A concrete backend to evaluate the code on, with every primitive
present: the natural sizes of the five named primitives, and a keyed function
that emits that many bytes, each the sum of the key's bytes, the input's
bytes and its position. -/
def sample_backend : Backend :=
  { has_method := fun _ => true
    has_instance := fun _ => true
    natural_size := fun a =>
      match a with
      | Algorithm.SHA1 => 20
      | Algorithm.SHA256 => 32
      | Algorithm.SHA512 => 64
      | Algorithm.RIPEMD160 => 20
      | Algorithm.MD5 => 16
      | Algorithm.Other _ => 0
    hmac := fun a k x =>
      (List.range (match a with
        | Algorithm.SHA1 => 20
        | Algorithm.SHA256 => 32
        | Algorithm.SHA512 => 64
        | Algorithm.RIPEMD160 => 20
        | Algorithm.MD5 => 16
        | Algorithm.Other _ => 0)).map
        (fun i => k.foldl (fun s b => s + b) 0 + x.foldl (fun s b => s + b) 0 + UInt8.ofNat i) }

end CryptoMAC

open CryptoMAC (Backend Heap InstanceObject spec_provider sample_backend)

/-! ## Pointer-typed configuration values -/

namespace ConfigTypePointer

/-- The memory `ConfigTypePointer::get` can reach: the member `pointers_`
(each key a `ConfigValue` pointer, each value a `ConfigObject` pointer with
`none` for NULL) and the two output slots `*cop` and `*ccp`. Pointers are
addresses; `T` pointers are addresses too. -/
structure State where
  pointers_ : List (Nat × Option Nat)
  cop : Option Nat
  ccp : Option Nat
  deriving DecidableEq, Repr

/-- The method `ConfigTypePointer::get<T>(cv, cop, ccp)`. `coerce` is
`ConfigObject::coerce<T>` (not among the sources) on a non-NULL object, with
`none` for a NULL result; `pointers_.find(cv)` is the lookup of the key. -/
def get (coerce : Nat → Option Nat) (s : State) (cv : Nat) : Bool × State :=
  match s.pointers_.lookup cv with
  | none => (false, s)
  | some co =>
    match co with
    | none => (true, { s with cop := none, ccp := none })
    | some obj =>
      match coerce obj with
      | none => (false, s)
      | some cc => (true, { s with cop := some obj, ccp := some cc })

end ConfigTypePointer

/-! ## Definitions used to state the properties -/

section Statements

variable {W μ ι : Type}

/-- What `SSH::MAC::algorithm` does once it has reached the row of its
identity, a row with wire name `name` and truncation length `t`. -/
def algorithm_at_row (P : Provider W μ ι) (a : Algorithm) (w : W) (name : String)
    (t : Nat) : AlgorithmResult W ι :=
  match P.method a with
  | none => { ret := none, log := [LogLine.error_no_method a], world := w }
  | some method =>
    match P.method_instance w method a with
    | (none, w1) => { ret := none, log := [LogLine.error_no_instance a], world := w1 }
    | (some inst, w1) =>
      { ret := some (CryptoSSHMAC.ctor P w1 name inst t), log := [], world := w1 }

/-- The table entries: the rows before the terminating row, each as (wire
name, identity, truncation length). -/
def registered_rows : List ssh_mac_algorithm → List (String × Algorithm × Nat)
  | [] => []
  | alg :: rest =>
    match alg.rfc4250_name_ with
    | none => []
    | some name => (name, alg.crypto_algorithm_, alg.size_) :: registered_rows rest

/-- The MAC `mac` was constructed for the table entry `row`: under the row's
wire name and truncation length, on an instance that the `Method` of the row's
identity returned. -/
def built_from (P : Provider W μ ι) (mac : CryptoSSHMAC ι)
    (row : String × Algorithm × Nat) : Prop :=
  ∃ method w0 inst w1, P.method row.2.1 = some method ∧
    P.method_instance w0 method row.2.1 = (some inst, w1) ∧
    mac = CryptoSSHMAC.ctor P w1 row.1 inst row.2.2

end Statements

/-- A backend that lacks the `Method` of SHA256 and cannot construct an
`Instance` for MD5; the rest is the sample backend. -/
def reduced_backend : Backend :=
  { sample_backend with
    has_method := fun a => decide (a ≠ Algorithm.SHA256)
    has_instance := fun a => decide (a ≠ Algorithm.MD5) }

/-! ## Properties -/

/-- C1: for every wire name, provider instance of natural size `n` and
truncation length `t`, the constructed MAC declares tag size `t` when `t` is
not zero and `n` when it is, and key size `n` whatever `t` is; so the table
rows "hmac-sha1-96" and "hmac-md5-96" carry `t = 12` and give tag size 12 with
key size `n`, and every row with `t = 0` gives tag size and key size `n`. -/
theorem C1_ctor_declared_sizes {W μ ι : Type} (P : Provider W μ ι) (w : W)
    (xname : String) (inst : ι) (t : Nat) :
    (CryptoSSHMAC.ctor P w xname inst t).size_
        = (if t = 0 then P.instance_size w inst else t) ∧
      (CryptoSSHMAC.ctor P w xname inst t).key_size_ = P.instance_size w inst ∧
      (∀ alg ∈ ssh_mac_algorithms, ∀ name, alg.rfc4250_name_ = some name →
        ((name = "hmac-sha1-96" ∨ name = "hmac-md5-96") →
          alg.size_ = 12 ∧
          (CryptoSSHMAC.ctor P w name inst alg.size_).size_ = 12 ∧
          (CryptoSSHMAC.ctor P w name inst alg.size_).key_size_ = P.instance_size w inst) ∧
        (alg.size_ = 0 →
          (CryptoSSHMAC.ctor P w name inst alg.size_).size_ = P.instance_size w inst ∧
          (CryptoSSHMAC.ctor P w name inst alg.size_).key_size_ = P.instance_size w inst) ∧
        (alg.size_ = 0 ∨ name = "hmac-sha1-96" ∨ name = "hmac-md5-96")) := by
  refine ⟨rfl, rfl, ?_⟩
  intro alg halg name hname
  simp only [ssh_mac_algorithms, List.mem_cons, List.mem_singleton, List.not_mem_nil,
    or_false] at halg
  rcases halg with h | h | h | h | h | h | h | h <;> subst h <;>
    simp [CryptoSSHMAC.ctor] at hname ⊢ <;> subst hname <;> decide

/-- C2, as stated, fails: the instance that `add_algorithms` builds for
"hmac-sha1-96" over a backend whose SHA-1 primitive emits 20 bytes declares
tag size 12, and a successful `mac` on it, keyed with a 20-byte key, leaves 20
bytes in an empty `out`, not 12. -/
theorem C2_mac_emits_twelve_counterexample :
    (add_algorithms (spec_provider sample_backend) []).added[5]?
        = some { name_ := "hmac-sha1-96", size_ := 12, key_size_ := 20, instance_ := 5 } ∧
      ( CryptoSSHMAC.initialize (spec_provider sample_backend)
        { name_ := "hmac-sha1-96", size_ := 12, key_size_ := 20, instance_ := 5 }
        (add_algorithms (spec_provider sample_backend) []).world
        (List.replicate 20 1)).1 = true ∧
      (CryptoSSHMAC.mac (spec_provider sample_backend)
        { name_ := "hmac-sha1-96", size_ := 12, key_size_ := 20, instance_ := 5 }
        ( CryptoSSHMAC.initialize (spec_provider sample_backend)
          { name_ := "hmac-sha1-96", size_ := 12, key_size_ := 20, instance_ := 5 }
          (add_algorithms (spec_provider sample_backend) []).world
          (List.replicate 20 1)).2 [] [5]).1.1 = true ∧
      ¬ (CryptoSSHMAC.mac (spec_provider sample_backend)
        { name_ := "hmac-sha1-96", size_ := 12, key_size_ := 20, instance_ := 5 }
        ( CryptoSSHMAC.initialize (spec_provider sample_backend)
          { name_ := "hmac-sha1-96", size_ := 12, key_size_ := 20, instance_ := 5 }
          (add_algorithms (spec_provider sample_backend) []).world
          (List.replicate 20 1)).2 [] [5]).1.2.length = 12 := by
  decide

/-- C2, amended: `CryptoSSHMAC::mac` hands `out` and `in` to the provider and
returns what the provider returns. So over a provider whose successful `mac`
appends a tag of its natural size, the instance constructed for
"hmac-sha1-96" with truncation length 12 on an instance of natural size 20
declares tag size 12, and a successful `mac` appends exactly 20 bytes to
`out`. -/
theorem C2_mac_emits_provider_tag {W μ ι : Type} (P : Provider W μ ι) (w0 w : W)
    (inst : ι) (out inp : Buffer)
    (hnat : ∀ w i out inp, (P.instance_mac w i out inp).1.1 = true →
      ∃ t, (P.instance_mac w i out inp).1.2 = out ++ t ∧ t.length = P.instance_size w i)
    (h20 : P.instance_size w inst = 20)
    (hok : (CryptoSSHMAC.mac P (CryptoSSHMAC.ctor P w0 "hmac-sha1-96" inst 12) w out inp).1.1
      = true) :
    (CryptoSSHMAC.ctor P w0 "hmac-sha1-96" inst 12).size_ = 12 ∧
      CryptoSSHMAC.mac P (CryptoSSHMAC.ctor P w0 "hmac-sha1-96" inst 12) w out inp
        = P.instance_mac w inst out inp ∧
      ∃ t, (CryptoSSHMAC.mac P (CryptoSSHMAC.ctor P w0 "hmac-sha1-96" inst 12) w out inp).1.2
          = out ++ t ∧ t.length = 20 := by
  refine ⟨rfl, rfl, ?_⟩
  obtain ⟨t, ht, hlen⟩ := hnat w inst out inp hok
  exact ⟨t, ht, hlen.trans h20⟩

/-- The sample backend's keyed function emits as many bytes as the natural
size of its primitive. -/
theorem sample_backend_hmac_length (a : Algorithm) (k x : Buffer) :
    (sample_backend.hmac a k x).length = sample_backend.natural_size a := by
  cases a <;> simp [sample_backend]

/-- A successful `mac` of the provider over the sample backend appends a tag
of the instance's natural size. -/
theorem sample_provider_mac_natural (w : Heap) (i : Nat) (out inp : Buffer)
    (h : ((spec_provider sample_backend).instance_mac w i out inp).1.1 = true) :
    ∃ t, ((spec_provider sample_backend).instance_mac w i out inp).1.2 = out ++ t ∧
      t.length = (spec_provider sample_backend).instance_size w i := by
  simp only [spec_provider, CryptoMAC.spec_instance_mac, CryptoMAC.spec_instance_size] at h ⊢
  cases hw : w[i]? with
  | none => simp [hw] at h
  | some o =>
    cases hk : o.key with
    | none => simp [hw, hk] at h
    | some k =>
      simp only [hw, hk]
      exact ⟨_, rfl, sample_backend_hmac_length _ _ _⟩

/-- Witness for C2 (amended): the provider over the sample backend, an SHA-1
instance keyed with two bytes, and the input `[5]`. -/
theorem C2_mac_emits_provider_tag_witness :
    (CryptoSSHMAC.ctor (spec_provider sample_backend) [⟨Algorithm.SHA1, none⟩]
        "hmac-sha1-96" 0 12).size_ = 12 ∧
      CryptoSSHMAC.mac (spec_provider sample_backend)
          (CryptoSSHMAC.ctor (spec_provider sample_backend) [⟨Algorithm.SHA1, none⟩]
            "hmac-sha1-96" 0 12) [⟨Algorithm.SHA1, some [1, 2]⟩] [] [5]
        = (spec_provider sample_backend).instance_mac [⟨Algorithm.SHA1, some [1, 2]⟩] 0 [] [5] ∧
      ∃ t, (CryptoSSHMAC.mac (spec_provider sample_backend)
          (CryptoSSHMAC.ctor (spec_provider sample_backend) [⟨Algorithm.SHA1, none⟩]
            "hmac-sha1-96" 0 12) [⟨Algorithm.SHA1, some [1, 2]⟩] [] [5]).1.2 = [] ++ t ∧
        t.length = 20 :=
  C2_mac_emits_provider_tag (spec_provider sample_backend) [⟨Algorithm.SHA1, none⟩]
    [⟨Algorithm.SHA1, some [1, 2]⟩] 0 [] [5] sample_provider_mac_natural (by decide) (by decide)

/-- C3 fails on the code: `clone` passes `key_size_` where the constructor
takes the truncation length, so the clone keeps the wire name but declares
the tag size from the key size. For the instance constructed for
"hmac-sha1-96" with truncation length 12 on an SHA-1 instance of natural size
20, the original declares tag size 12 and its clone, still named
"hmac-sha1-96", declares tag size 20; the key size is 20 for both. -/
theorem C3_clone_declares_key_size_as_tag_size :
    (∀ {W μ ι : Type} (P : Provider W μ ι) (m : CryptoSSHMAC ι) (w : W),
      (CryptoSSHMAC.clone P m w).1.name_ = m.name_ ∧
      (CryptoSSHMAC.clone P m w).1.size_
        = (if m.key_size_ = 0
            then P.instance_size (P.instance_clone w m.instance_).2
              (P.instance_clone w m.instance_).1
            else m.key_size_)) ∧
      (CryptoSSHMAC.ctor (spec_provider sample_backend) [⟨Algorithm.SHA1, none⟩]
        "hmac-sha1-96" 0 12).size_ = 12 ∧
      (CryptoSSHMAC.clone (spec_provider sample_backend)
        (CryptoSSHMAC.ctor (spec_provider sample_backend) [⟨Algorithm.SHA1, none⟩]
          "hmac-sha1-96" 0 12) [⟨Algorithm.SHA1, none⟩]).1
        = { name_ := "hmac-sha1-96", size_ := 20, key_size_ := 20, instance_ := 1 } ∧
      (CryptoSSHMAC.ctor (spec_provider sample_backend) [⟨Algorithm.SHA1, none⟩]
        "hmac-sha1-96" 0 12).key_size_ = 20 := by
  refine ⟨fun P m w => ⟨rfl, rfl⟩, ?_, ?_, ?_⟩ <;> decide

/-- C10: `get` returns true exactly when `cv` is a key of the map and its
object is NULL or coerces to `T`; on true with a NULL object both slots
become NULL, on true otherwise `*cop` is the object and `*ccp` its coercion;
on false neither slot is written; the map is never changed. -/
theorem C10_get (coerce : Nat → Option Nat) (s : ConfigTypePointer.State) (cv : Nat) :
    ((s.pointers_.lookup cv).isSome = true ↔ cv ∈ s.pointers_.map Prod.fst) ∧
      ((ConfigTypePointer.get coerce s cv).1 = true ↔
        ∃ co, s.pointers_.lookup cv = some co ∧
          (co = none ∨ ∃ obj, co = some obj ∧ (coerce obj).isSome = true)) ∧
      (s.pointers_.lookup cv = some none →
        ConfigTypePointer.get coerce s cv = (true, { s with cop := none, ccp := none })) ∧
      (∀ obj cc, s.pointers_.lookup cv = some (some obj) → coerce obj = some cc →
        ConfigTypePointer.get coerce s cv
          = (true, { s with cop := some obj, ccp := some cc })) ∧
      ((ConfigTypePointer.get coerce s cv).1 = false →
        (ConfigTypePointer.get coerce s cv).2 = s) ∧
      (ConfigTypePointer.get coerce s cv).2.pointers_ = s.pointers_ := by
  refine ⟨?_, ?_, ?_, ?_, ?_, ?_⟩
  · generalize s.pointers_ = l
    induction l with
    | nil => simp
    | cons e l ih =>
      obtain ⟨k, v⟩ := e
      by_cases hk : cv = k
      · subst hk; simp [List.lookup]
      · have hb : (cv == k) = false := by simpa using hk
        simp [List.lookup, hb, ih, hk]
  · unfold ConfigTypePointer.get
    cases hl : s.pointers_.lookup cv with
    | none => simp
    | some co =>
      cases co with
      | none => simp
      | some obj => cases hc : coerce obj <;> simp [hc]
  · intro hl
    simp [ConfigTypePointer.get, hl]
  · intro obj cc hl hc
    simp [ConfigTypePointer.get, hl, hc]
  · unfold ConfigTypePointer.get
    cases hl : s.pointers_.lookup cv with
    | none => simp
    | some co =>
      cases co with
      | none => simp
      | some obj => cases hc : coerce obj <;> simp [hc]
  · unfold ConfigTypePointer.get
    cases hl : s.pointers_.lookup cv with
    | none => simp
    | some co =>
      cases co with
      | none => simp
      | some obj => cases hc : coerce obj <;> simp [hc]

section Lookup

variable {W μ ι : Type}

theorem algorithm_SHA1 (P : Provider W μ ι) (w : W) :
    algorithm P Algorithm.SHA1 w = algorithm_at_row P Algorithm.SHA1 w "hmac-sha1" 0 := rfl

theorem algorithm_SHA256 (P : Provider W μ ι) (w : W) :
    algorithm P Algorithm.SHA256 w
      = algorithm_at_row P Algorithm.SHA256 w "hmac-sha2-256" 0 := rfl

theorem algorithm_SHA512 (P : Provider W μ ι) (w : W) :
    algorithm P Algorithm.SHA512 w
      = algorithm_at_row P Algorithm.SHA512 w "hmac-sha2-512" 0 := rfl

theorem algorithm_RIPEMD160 (P : Provider W μ ι) (w : W) :
    algorithm P Algorithm.RIPEMD160 w
      = algorithm_at_row P Algorithm.RIPEMD160 w "hmac-ripemd160" 0 := rfl

theorem algorithm_MD5 (P : Provider W μ ι) (w : W) :
    algorithm P Algorithm.MD5 w = algorithm_at_row P Algorithm.MD5 w "hmac-md5" 0 := rfl

theorem algorithm_Other (P : Provider W μ ι) (w : W) (code : Nat) :
    algorithm P (Algorithm.Other code) w
      = { ret := none, log := [LogLine.error_no_support (Algorithm.Other code)], world := w } :=
  rfl

end Lookup

section LookupClaims

variable {W μ ι : Type}

/-- What `algorithm_at_row` returns, read off the provider's two answers. -/
theorem algorithm_at_row_ret (P : Provider W μ ι) (a : Algorithm) (w : W) (name : String)
    (t : Nat) :
    ((algorithm_at_row P a w name t).ret.isSome = true ↔
        ∃ method, P.method a = some method ∧
          (P.method_instance w method a).1.isSome = true) ∧
      ∀ mac, (algorithm_at_row P a w name t).ret = some mac →
        mac.name_ = name ∧
        mac.key_size_ = P.instance_size (algorithm_at_row P a w name t).world mac.instance_ ∧
        mac.size_ = (if t = 0 then mac.key_size_ else t) := by
  unfold algorithm_at_row
  cases hm : P.method a with
  | none => simp
  | some method =>
    rcases hi : P.method_instance w method a with ⟨_ | inst, w1⟩
    · simp [hi]
    · simp only [hi, Option.isSome_some, Option.some.injEq, exists_eq_left', true_iff,
        true_and]
      intro mac hmac
      subst hmac
      exact ⟨rfl, rfl, rfl⟩

/-- C9: `algorithm` returns a MAC exactly for the five identities of the
table whose `Method` lookup and `Instance` construction both succeed, and the
MAC comes from the first row carrying the identity: truncation length 0, so
tag size = key size = the provider's natural size, under the untruncated wire
name ("hmac-sha1" for SHA1, "hmac-md5" for MD5), never "hmac-sha1-96" or
"hmac-md5-96". -/
theorem C9_algorithm_first_row (P : Provider W μ ι) (a : Algorithm) (w : W) :
    ((algorithm P a w).ret.isSome = true ↔
        (a = Algorithm.SHA1 ∨ a = Algorithm.SHA256 ∨ a = Algorithm.SHA512 ∨
          a = Algorithm.RIPEMD160 ∨ a = Algorithm.MD5) ∧
        ∃ method, P.method a = some method ∧
          (P.method_instance w method a).1.isSome = true) ∧
      ∀ mac, (algorithm P a w).ret = some mac →
        (∃ row, ssh_mac_algorithms.find? (fun r => decide (r.crypto_algorithm_ = a)) = some row ∧
          row.rfc4250_name_ = some mac.name_ ∧ row.size_ = 0) ∧
        mac.size_ = mac.key_size_ ∧
        mac.key_size_ = P.instance_size (algorithm P a w).world mac.instance_ ∧
        mac.name_ ≠ "hmac-sha1-96" ∧ mac.name_ ≠ "hmac-md5-96" ∧
        (a = Algorithm.SHA1 → mac.name_ = "hmac-sha1") ∧
        (a = Algorithm.MD5 → mac.name_ = "hmac-md5") := by
  cases a with
  | Other code =>
    rw [algorithm_Other]
    simp
  | SHA1 =>
    rw [algorithm_SHA1]
    refine ⟨by simpa using (algorithm_at_row_ret P _ w _ 0).1, ?_⟩
    intro mac hmac
    obtain ⟨hn, hk, hs⟩ := (algorithm_at_row_ret P _ w _ 0).2 mac hmac
    refine ⟨⟨_, rfl, by simp [hn], rfl⟩, by simpa using hs, hk, ?_, ?_, fun _ => hn, ?_⟩ <;>
      simp [hn]
  | SHA256 =>
    rw [algorithm_SHA256]
    refine ⟨by simpa using (algorithm_at_row_ret P _ w _ 0).1, ?_⟩
    intro mac hmac
    obtain ⟨hn, hk, hs⟩ := (algorithm_at_row_ret P _ w _ 0).2 mac hmac
    refine ⟨⟨_, rfl, by simp [hn], rfl⟩, by simpa using hs, hk, ?_, ?_, ?_, ?_⟩ <;>
      simp [hn]
  | SHA512 =>
    rw [algorithm_SHA512]
    refine ⟨by simpa using (algorithm_at_row_ret P _ w _ 0).1, ?_⟩
    intro mac hmac
    obtain ⟨hn, hk, hs⟩ := (algorithm_at_row_ret P _ w _ 0).2 mac hmac
    refine ⟨⟨_, rfl, by simp [hn], rfl⟩, by simpa using hs, hk, ?_, ?_, ?_, ?_⟩ <;>
      simp [hn]
  | RIPEMD160 =>
    rw [algorithm_RIPEMD160]
    refine ⟨by simpa using (algorithm_at_row_ret P _ w _ 0).1, ?_⟩
    intro mac hmac
    obtain ⟨hn, hk, hs⟩ := (algorithm_at_row_ret P _ w _ 0).2 mac hmac
    refine ⟨⟨_, rfl, by simp [hn], rfl⟩, by simpa using hs, hk, ?_, ?_, ?_, ?_⟩ <;>
      simp [hn]
  | MD5 =>
    rw [algorithm_MD5]
    refine ⟨by simpa using (algorithm_at_row_ret P _ w _ 0).1, ?_⟩
    intro mac hmac
    obtain ⟨hn, hk, hs⟩ := (algorithm_at_row_ret P _ w _ 0).2 mac hmac
    refine ⟨⟨_, rfl, by simp [hn], rfl⟩, by simpa using hs, hk, ?_, ?_, ?_, fun _ => hn⟩ <;>
      simp [hn]

end LookupClaims

section NullResult

variable {W μ ι : Type}

/-- An identity that a named row of the table carries is one of the five. -/
theorem recognized_cases (a : Algorithm)
    (ha : ∃ row ∈ ssh_mac_algorithms, row.rfc4250_name_.isSome = true ∧
      row.crypto_algorithm_ = a) :
    a = Algorithm.SHA1 ∨ a = Algorithm.SHA256 ∨ a = Algorithm.SHA512 ∨
      a = Algorithm.RIPEMD160 ∨ a = Algorithm.MD5 := by
  obtain ⟨row, hrow, _, rfl⟩ := ha
  simp only [ssh_mac_algorithms, List.mem_cons, List.mem_singleton, List.not_mem_nil,
    or_false] at hrow
  rcases hrow with h | h | h | h | h | h | h | h <;> subst h <;> simp

/-- An identity that no named row of the table carries is none of the five. -/
theorem unrecognized_cases (b : Algorithm)
    (hb : ∀ row ∈ ssh_mac_algorithms, row.rfc4250_name_.isSome = true →
      row.crypto_algorithm_ ≠ b) :
    ∃ code, b = Algorithm.Other code := by
  cases b with
  | Other code => exact ⟨code, rfl⟩
  | SHA1 => exact absurd rfl (hb ⟨some "hmac-sha1", Algorithm.SHA1, 0⟩ (by decide) rfl)
  | SHA256 => exact absurd rfl (hb ⟨some "hmac-sha2-256", Algorithm.SHA256, 0⟩ (by decide) rfl)
  | SHA512 => exact absurd rfl (hb ⟨some "hmac-sha2-512", Algorithm.SHA512, 0⟩ (by decide) rfl)
  | RIPEMD160 =>
    exact absurd rfl (hb ⟨some "hmac-ripemd160", Algorithm.RIPEMD160, 0⟩ (by decide) rfl)
  | MD5 => exact absurd rfl (hb ⟨some "hmac-md5", Algorithm.MD5, 0⟩ (by decide) rfl)

/-- At the row of its identity, a failed `Method` lookup or `Instance`
construction gives NULL and one of the two "Could not get" lines. -/
theorem algorithm_at_row_unavailable (P : Provider W μ ι) (a : Algorithm) (w : W)
    (name : String) (t : Nat)
    (hun : P.method a = none ∨
      ∃ method, P.method a = some method ∧ (P.method_instance w method a).1 = none) :
    (algorithm_at_row P a w name t).ret = none ∧
      ((algorithm_at_row P a w name t).log = [LogLine.error_no_method a] ∨
        (algorithm_at_row P a w name t).log = [LogLine.error_no_instance a]) := by
  unfold algorithm_at_row
  rcases hun with hm | ⟨method, hm, hi⟩
  · simp [hm]
  · rcases hp : P.method_instance w method a with ⟨_ | inst, w1⟩
    · simp [hm, hp]
    · simp [hp] at hi

/-- C7, as stated, fails: over a backend without the `Method` of SHA256 and
without an `Instance` for MD5, `algorithm` returns the same NULL for the
recognized identities SHA256 and MD5 as for an identity the table does not
hold. -/
theorem C7_unavailable_not_distinct_counterexample :
    (algorithm (spec_provider reduced_backend) Algorithm.SHA256 []).ret
        = (algorithm (spec_provider reduced_backend) (Algorithm.Other 0) []).ret ∧
      (algorithm (spec_provider reduced_backend) Algorithm.MD5 []).ret
        = (algorithm (spec_provider reduced_backend) (Algorithm.Other 0) []).ret ∧
      (algorithm (spec_provider reduced_backend) (Algorithm.Other 0) []).ret = none := by
  decide

/-- C7, amended: for an identity `a` that the table recognizes but whose
`Method` lookup or `Instance` construction yields NULL, and an identity `b`
that is not in the table, `algorithm` returns NULL in both cases; the cases
differ only in the line logged ("Could not get method" or "Could not get
instance" for `a`, "No SSH MAC support is available" for `b`). -/
theorem C7_null_for_unavailable_and_not_found (P : Provider W μ ι) (a b : Algorithm) (w : W)
    (ha : ∃ row ∈ ssh_mac_algorithms, row.rfc4250_name_.isSome = true ∧
      row.crypto_algorithm_ = a)
    (hb : ∀ row ∈ ssh_mac_algorithms, row.rfc4250_name_.isSome = true →
      row.crypto_algorithm_ ≠ b)
    (hun : P.method a = none ∨
      ∃ method, P.method a = some method ∧ (P.method_instance w method a).1 = none) :
    (algorithm P a w).ret = none ∧ (algorithm P b w).ret = none ∧
      ((algorithm P a w).log = [LogLine.error_no_method a] ∨
        (algorithm P a w).log = [LogLine.error_no_instance a]) ∧
      (algorithm P b w).log = [LogLine.error_no_support b] := by
  obtain ⟨code, rfl⟩ := unrecognized_cases b hb
  rw [algorithm_Other]
  rcases recognized_cases a ha with h | h | h | h | h <;> subst h
  · rw [algorithm_SHA1]
    exact ⟨(algorithm_at_row_unavailable P _ w _ _ hun).1, rfl,
      (algorithm_at_row_unavailable P _ w _ _ hun).2, rfl⟩
  · rw [algorithm_SHA256]
    exact ⟨(algorithm_at_row_unavailable P _ w _ _ hun).1, rfl,
      (algorithm_at_row_unavailable P _ w _ _ hun).2, rfl⟩
  · rw [algorithm_SHA512]
    exact ⟨(algorithm_at_row_unavailable P _ w _ _ hun).1, rfl,
      (algorithm_at_row_unavailable P _ w _ _ hun).2, rfl⟩
  · rw [algorithm_RIPEMD160]
    exact ⟨(algorithm_at_row_unavailable P _ w _ _ hun).1, rfl,
      (algorithm_at_row_unavailable P _ w _ _ hun).2, rfl⟩
  · rw [algorithm_MD5]
    exact ⟨(algorithm_at_row_unavailable P _ w _ _ hun).1, rfl,
      (algorithm_at_row_unavailable P _ w _ _ hun).2, rfl⟩

end NullResult

/-- Witness for C7 (amended): MD5 has a `Method` but no `Instance` over the
reduced backend, and `Other 0` is not in the table. -/
theorem C7_null_for_unavailable_and_not_found_witness :
    (algorithm (spec_provider reduced_backend) Algorithm.MD5 []).ret = none ∧
      (algorithm (spec_provider reduced_backend) (Algorithm.Other 0) []).ret = none ∧
      ((algorithm (spec_provider reduced_backend) Algorithm.MD5 []).log
          = [LogLine.error_no_method Algorithm.MD5] ∨
        (algorithm (spec_provider reduced_backend) Algorithm.MD5 []).log
          = [LogLine.error_no_instance Algorithm.MD5]) ∧
      (algorithm (spec_provider reduced_backend) (Algorithm.Other 0) []).log
        = [LogLine.error_no_support (Algorithm.Other 0)] :=
  C7_null_for_unavailable_and_not_found (spec_provider reduced_backend) Algorithm.MD5
    (Algorithm.Other 0) []
    ⟨⟨some "hmac-md5", Algorithm.MD5, 0⟩, by decide, rfl, rfl⟩
    (by decide)
    (Or.inr ⟨Algorithm.MD5, by decide, by decide⟩)

section Registration

variable {W μ ι : Type}

/-- The loop appends, to what the negotiation already holds, one MAC for each
available entry among the rows it walks, in their order. -/
theorem add_algorithms_loop_added (P : Provider W μ ι) (avail : Algorithm → Bool)
    (hav : ∀ w a method, P.method a = some method →
      (P.method_instance w method a).1.isSome = avail a) :
    ∀ (rows : List ssh_mac_algorithm) (s : AddState W ι),
      ∃ l, (add_algorithms_loop P rows s).added = s.added ++ l ∧
        List.Forall₂ (built_from P) l
          ((registered_rows rows).filter
            (fun row => (P.method row.2.1).isSome && avail row.2.1)) := by
  intro rows
  induction rows with
  | nil =>
    intro s
    exact ⟨[], by simp [add_algorithms_loop], by simp [registered_rows]⟩
  | cons alg rest ih =>
    intro s
    unfold add_algorithms_loop registered_rows
    cases hname : alg.rfc4250_name_ with
    | none => exact ⟨[], by simp, by simp⟩
    | some name =>
      cases hm : P.method alg.crypto_algorithm_ with
      | none =>
        obtain ⟨l, h1, h2⟩ := ih { s with
          log := s.log ++ [LogLine.debug_no_method alg.crypto_algorithm_] }
        refine ⟨l, h1, ?_⟩
        simpa [List.filter_cons, hm] using h2
      | some method =>
        have hav1 := hav s.world alg.crypto_algorithm_ method hm
        rcases hi : P.method_instance s.world method alg.crypto_algorithm_ with ⟨_ | inst, w1⟩
        · rw [hi] at hav1
          simp only [hi]
          obtain ⟨l, h1, h2⟩ := ih { s with
            log := s.log ++ [LogLine.debug_no_instance alg.crypto_algorithm_]
            world := w1 }
          refine ⟨l, h1, ?_⟩
          have hfalse : avail alg.crypto_algorithm_ = false := by simpa using hav1.symm
          simpa [List.filter_cons, hm, hfalse] using h2
        · rw [hi] at hav1
          simp only [hi]
          obtain ⟨l, h1, h2⟩ := ih { s with
            added := s.added ++ [CryptoSSHMAC.ctor P w1 name inst alg.size_]
            world := w1 }
          refine ⟨CryptoSSHMAC.ctor P w1 name inst alg.size_ :: l, by simpa using h1, ?_⟩
          have htrue : avail alg.crypto_algorithm_ = true := by simpa using hav1.symm
          simp only [List.filter_cons, hm, htrue, Option.isSome_some, Bool.and_self, if_true]
          exact List.Forall₂.cons ⟨method, s.world, inst, w1, hm, hi, rfl⟩ h2

/-- The wire names of MACs constructed for rows are the rows' wire names. -/
theorem built_from_names (P : Provider W μ ι) :
    ∀ (l : List (CryptoSSHMAC ι)) (rows : List (String × Algorithm × Nat)),
      List.Forall₂ (built_from P) l rows →
        l.map (fun mac => mac.name_) = rows.map (fun row => row.1) := by
  intro l rows h
  induction h with
  | nil => rfl
  | cons hd _ ih =>
    obtain ⟨_, _, _, _, _, _, rfl⟩ := hd
    simp [ih, CryptoSSHMAC.ctor]

/-- C4: whatever identities have a `Method` and an `Instance`,
`add_algorithms` passes to the negotiation exactly the table entries whose
`Method` lookup and `Instance` construction both succeed, in table order, each
constructed under its table wire name and truncation length; an entry without
provider is skipped and the entries after it are still added. -/
theorem C4_add_algorithms_adds_available (P : Provider W μ ι) (avail : Algorithm → Bool)
    (w : W)
    (hav : ∀ w a method, P.method a = some method →
      (P.method_instance w method a).1.isSome = avail a) :
    registered_rows ssh_mac_algorithms
        = [("hmac-sha1", Algorithm.SHA1, 0), ("hmac-sha2-256", Algorithm.SHA256, 0),
            ("hmac-sha2-512", Algorithm.SHA512, 0), ("hmac-ripemd160", Algorithm.RIPEMD160, 0),
            ("hmac-md5", Algorithm.MD5, 0), ("hmac-sha1-96", Algorithm.SHA1, 12),
            ("hmac-md5-96", Algorithm.MD5, 12)] ∧
      List.Forall₂ (built_from P) (add_algorithms P w).added
        ((registered_rows ssh_mac_algorithms).filter
          (fun row => (P.method row.2.1).isSome && avail row.2.1)) ∧
      (add_algorithms P w).added.map (fun mac => mac.name_)
        = ((registered_rows ssh_mac_algorithms).filter
            (fun row => (P.method row.2.1).isSome && avail row.2.1)).map (fun row => row.1) := by
  obtain ⟨l, h1, h2⟩ := add_algorithms_loop_added P avail hav ssh_mac_algorithms
    { added := [], log := [], world := w }
  have hl : (add_algorithms P w).added = l := by simpa [add_algorithms] using h1
  rw [hl]
  exact ⟨rfl, h2, built_from_names P _ _ h2⟩

end Registration

/-- Over the provider of a backend, whether `Method::instance` returns an
object depends on the identity alone. -/
theorem spec_provider_available (B : Backend) (w : Heap) (a method : Algorithm)
    (_h : (spec_provider B).method a = some method) :
    ((spec_provider B).method_instance w method a).1.isSome = B.has_instance a := by
  simp only [spec_provider, CryptoMAC.spec_method_instance]
  cases B.has_instance a <;> simp

/-- Witness for C4: over the reduced backend (no `Method` for SHA256, no
`Instance` for MD5) the negotiation receives "hmac-sha1", "hmac-sha2-512",
"hmac-ripemd160" and "hmac-sha1-96", in this order. -/
theorem C4_add_algorithms_adds_available_witness :
    (add_algorithms (spec_provider reduced_backend) []).added.map (fun mac => mac.name_)
      = ["hmac-sha1", "hmac-sha2-512", "hmac-ripemd160", "hmac-sha1-96"] :=
  (C4_add_algorithms_adds_available (spec_provider reduced_backend)
    reduced_backend.has_instance [] (spec_provider_available reduced_backend)).2.2.trans
    (by decide)

section Keying

/-- A successful `initialize` of the provider happens on an unkeyed object
and stores the key in it. -/
theorem spec_initialize_true (B : Backend) (h : Heap) (p : Nat) (k : Buffer)
    (hok : (CryptoMAC.spec_instance_initialize B h p k).1 = true) :
    ∃ o, h[p]? = some o ∧ o.key = none ∧ k.length = B.natural_size o.algorithm ∧
      (CryptoMAC.spec_instance_initialize B h p k).2 = h.set p { o with key := some k } := by
  unfold CryptoMAC.spec_instance_initialize at hok ⊢
  cases hp : h[p]? with
  | none => simp [hp] at hok
  | some o =>
    simp only [hp] at hok ⊢
    cases hk : o.key with
    | some k0 => simp [hk] at hok
    | none =>
      by_cases hlen : k.length = B.natural_size o.algorithm
      · exact ⟨o, rfl, hk, hlen, by simp [hk, hlen]⟩
      · simp [hk, hlen] at hok

/-- Reading back the object that was just stored. -/
theorem heap_get_set (h : Heap) (p : Nat) (o o1 : InstanceObject) (hp : h[p]? = some o) :
    (h.set p o1)[p]? = some o1 := by
  have hlt : p < h.length := by
    by_contra hge
    have : h[p]? = none := List.getElem?_eq_none (Nat.le_of_not_lt hge)
    rw [this] at hp
    exact Option.noConfusion hp
  simp [List.getElem?_set, hlt]

/-- C5: once `initialize(k1)` has returned true, `initialize(k2)` on the same
instance returns false and changes nothing, and every later `mac(out, in)`
succeeds with the tag of the instance's primitive under `k1` appended to
`out`. -/
theorem C5_second_initialize_rejected (B : Backend) (h : Heap) (m : CryptoSSHMAC Nat)
    (k1 k2 : Buffer)
    (hok : ( CryptoSSHMAC.initialize (spec_provider B) m h k1).1 = true) :
    CryptoSSHMAC.initialize (spec_provider B) m
        ( CryptoSSHMAC.initialize (spec_provider B) m h k1).2 k2
      = (false, ( CryptoSSHMAC.initialize (spec_provider B) m h k1).2) ∧
    ∃ o, h[m.instance_]? = some o ∧ ∀ out inp,
      CryptoSSHMAC.mac (spec_provider B) m
          ( CryptoSSHMAC.initialize (spec_provider B) m
            ( CryptoSSHMAC.initialize (spec_provider B) m h k1).2 k2).2 out inp
        = ((true, out ++ B.hmac o.algorithm k1 inp),
            ( CryptoSSHMAC.initialize (spec_provider B) m h k1).2) := by
  simp only [ CryptoSSHMAC.initialize, CryptoSSHMAC.mac, spec_provider] at hok ⊢
  obtain ⟨o, hp, _, _, hset⟩ := spec_initialize_true B h m.instance_ k1 hok
  have hget := heap_get_set h m.instance_ o { o with key := some k1 } hp
  have h2 : CryptoMAC.spec_instance_initialize B
      (CryptoMAC.spec_instance_initialize B h m.instance_ k1).2 m.instance_ k2
      = (false, (CryptoMAC.spec_instance_initialize B h m.instance_ k1).2) := by
    rw [hset]
    simp [CryptoMAC.spec_instance_initialize, hget]
  refine ⟨h2, o, hp, ?_⟩
  intro out inp
  rw [h2, hset]
  simp [CryptoMAC.spec_instance_mac, hget]

/-- Witness for C5: an SHA-1 instance of the sample backend, keyed with two
different 20-byte keys in turn. -/
theorem C5_second_initialize_rejected_witness :
    CryptoSSHMAC.initialize (spec_provider sample_backend)
        { name_ := "hmac-sha1", size_ := 20, key_size_ := 20, instance_ := 0 }
        ( CryptoSSHMAC.initialize (spec_provider sample_backend)
          { name_ := "hmac-sha1", size_ := 20, key_size_ := 20, instance_ := 0 }
          [⟨Algorithm.SHA1, none⟩] (List.replicate 20 1)).2 (List.replicate 20 2)
      = (false, ( CryptoSSHMAC.initialize (spec_provider sample_backend)
          { name_ := "hmac-sha1", size_ := 20, key_size_ := 20, instance_ := 0 }
          [⟨Algorithm.SHA1, none⟩] (List.replicate 20 1)).2) :=
  (C5_second_initialize_rejected sample_backend [⟨Algorithm.SHA1, none⟩]
    { name_ := "hmac-sha1", size_ := 20, key_size_ := 20, instance_ := 0 }
    (List.replicate 20 1) (List.replicate 20 2) (by decide)).1

/-- C6: a key whose length differs from the declared key size of the
instance makes `initialize` return false and leaves every provider object as
it was, so an uninitialized instance stays uninitialized. -/
theorem C6_wrong_key_length_rejected (B : Backend) (h0 h : Heap) (xname : String) (p : Nat)
    (xsize : Nat) (key : Buffer)
    (hsize : CryptoMAC.spec_instance_size B h p = CryptoMAC.spec_instance_size B h0 p)
    (hlen : key.length ≠ (CryptoSSHMAC.ctor (spec_provider B) h0 xname p xsize).key_size_) :
    CryptoSSHMAC.initialize (spec_provider B)
        (CryptoSSHMAC.ctor (spec_provider B) h0 xname p xsize) h key = (false, h) := by
  simp only [ CryptoSSHMAC.initialize, CryptoSSHMAC.ctor, spec_provider] at hlen ⊢
  rw [← hsize] at hlen
  unfold CryptoMAC.spec_instance_initialize
  unfold CryptoMAC.spec_instance_size at hlen
  cases hp : h[p]? with
  | none => rfl
  | some o =>
    simp only [hp] at hlen ⊢
    cases hk : o.key <;> simp [hlen]

end Keying

/-- Witness for C6: the instance constructed for "hmac-sha1-96" declares key
size 20, and a 12-byte key is refused. -/
theorem C6_wrong_key_length_rejected_witness :
    CryptoSSHMAC.initialize (spec_provider sample_backend)
        (CryptoSSHMAC.ctor (spec_provider sample_backend) [⟨Algorithm.SHA1, none⟩]
          "hmac-sha1-96" 0 12) [⟨Algorithm.SHA1, none⟩] (List.replicate 12 1)
      = (false, [⟨Algorithm.SHA1, none⟩]) :=
  C6_wrong_key_length_rejected sample_backend [⟨Algorithm.SHA1, none⟩]
    [⟨Algorithm.SHA1, none⟩] "hmac-sha1-96" 0 12 (List.replicate 12 1) rfl (by decide)

section Cloning

/-- The provider's `initialize` on one object leaves every other object as
it was. -/
theorem spec_initialize_frame (B : Backend) (h : Heap) (q p : Nat) (k : Buffer)
    (hne : q ≠ p) :
    (CryptoMAC.spec_instance_initialize B h q k).2[p]? = h[p]? := by
  unfold CryptoMAC.spec_instance_initialize
  cases hq : h[q]? with
  | none => rfl
  | some o =>
    simp only
    split
    · rfl
    · split
      · rfl
      · simp [List.getElem?_set, hne]

/-- The provider's `mac` reads nothing but the object it is called on. -/
theorem spec_mac_reads_object (B : Backend) (h1 h2 : Heap) (p : Nat) (out inp : Buffer)
    (heq : h1[p]? = h2[p]?) :
    (CryptoMAC.spec_instance_mac B h1 p out inp).1
      = (CryptoMAC.spec_instance_mac B h2 p out inp).1 := by
  unfold CryptoMAC.spec_instance_mac
  rw [heq]
  cases h2[p]? with
  | none => rfl
  | some o =>
    simp only
    cases hk : o.key <;> rfl

/-- C8: the clone of an instance `m`, keyed or not, holds a new provider
object, distinct from the one `m` holds and without a key; cloning, and then
`initialize(k)` on the clone, leave the object of `m` (its key state
included) as it was, and every `mac` of `m` gives the same result and the same
tag as before. -/
theorem C8_clone_independent (B : Backend) (h : Heap) (m : CryptoSSHMAC Nat) (k : Buffer)
    (hp : m.instance_ < h.length) :
    (CryptoSSHMAC.clone (spec_provider B) m h).1.instance_ ≠ m.instance_ ∧
      ((CryptoSSHMAC.clone (spec_provider B) m h).2[
          (CryptoSSHMAC.clone (spec_provider B) m h).1.instance_]?).map (fun o => o.key)
        = some none ∧
      (∀ out inp, (CryptoSSHMAC.mac (spec_provider B)
          (CryptoSSHMAC.clone (spec_provider B) m h).1
          (CryptoSSHMAC.clone (spec_provider B) m h).2 out inp).1 = (false, out)) ∧
      (CryptoSSHMAC.clone (spec_provider B) m h).2[m.instance_]? = h[m.instance_]? ∧
      ( CryptoSSHMAC.initialize (spec_provider B)
          (CryptoSSHMAC.clone (spec_provider B) m h).1
          (CryptoSSHMAC.clone (spec_provider B) m h).2 k).2[m.instance_]?
        = h[m.instance_]? ∧
      ∀ out inp,
        (CryptoSSHMAC.mac (spec_provider B) m
          ( CryptoSSHMAC.initialize (spec_provider B)
            (CryptoSSHMAC.clone (spec_provider B) m h).1
            (CryptoSSHMAC.clone (spec_provider B) m h).2 k).2 out inp).1
          = (CryptoSSHMAC.mac (spec_provider B) m h out inp).1 := by
  have hget : h[m.instance_]? = some h[m.instance_] := List.getElem?_eq_getElem hp
  have hclone : CryptoMAC.spec_instance_clone h m.instance_
      = (h.length, h ++ [{ algorithm := h[m.instance_].algorithm, key := none }]) := by
    simp [CryptoMAC.spec_instance_clone, hget]
  have hne : h.length ≠ m.instance_ := Nat.ne_of_gt hp
  have hkeep : (h ++ [({ algorithm := h[m.instance_].algorithm, key := none } :
      InstanceObject)])[m.instance_]? = h[m.instance_]? :=
    List.getElem?_append_left hp
  have hinit : ( CryptoMAC.spec_instance_initialize B
      (h ++ [{ algorithm := h[m.instance_].algorithm, key := none }]) h.length
      k).2[m.instance_]? = h[m.instance_]? :=
    (spec_initialize_frame B _ h.length m.instance_ k hne).trans hkeep
  simp only [CryptoSSHMAC.clone, CryptoSSHMAC.initialize, CryptoSSHMAC.mac, CryptoSSHMAC.ctor,
    spec_provider, hclone]
  refine ⟨hne, by simp, ?_, hkeep, hinit, ?_⟩
  · intro out inp
    simp [CryptoMAC.spec_instance_mac]
  · intro out inp
    exact spec_mac_reads_object B _ _ _ out inp hinit

end Cloning

/-- Witness for C8: an SHA-1 instance already keyed, cloned, the clone then
keyed with another key. -/
theorem C8_clone_independent_witness :
    ( CryptoSSHMAC.initialize (spec_provider sample_backend)
        (CryptoSSHMAC.clone (spec_provider sample_backend)
          { name_ := "hmac-sha1", size_ := 20, key_size_ := 20, instance_ := 0 }
          [⟨Algorithm.SHA1, some (List.replicate 20 1)⟩]).1
        (CryptoSSHMAC.clone (spec_provider sample_backend)
          { name_ := "hmac-sha1", size_ := 20, key_size_ := 20, instance_ := 0 }
          [⟨Algorithm.SHA1, some (List.replicate 20 1)⟩]).2 (List.replicate 20 2)).2[0]?
      = some ⟨Algorithm.SHA1, some (List.replicate 20 1)⟩ :=
  (C8_clone_independent sample_backend [⟨Algorithm.SHA1, some (List.replicate 20 1)⟩]
    { name_ := "hmac-sha1", size_ := 20, key_size_ := 20, instance_ := 0 }
    (List.replicate 20 2) (by decide)).2.2.2.2.1

end WANProxy
